import Mathlib

/-!
Verification of the financial-document processing pipeline.

The development embeds, as executable Lean definitions, the two helper
functions of the extraction client (`extractFinancialData`, `analyzeAudio`)
and the two background job handlers (`processFinancialDocument`,
`processFinancialAudio`).  External effects (environment variable lookup,
file system, the generative-AI model call, the document store) are passed
in explicitly as inputs, so a job execution is a pure function from an
environment to a final store state, an outcome, and a small trace.
-/

/-! ## Characters, JS-style string helpers -/

/-- The backtick character (obtained from a string literal). -/
def tk : Char := "`".data.getD 0 ' '

/-- Whitespace recognised by the string trim operation (ASCII subset of the
JS `String.prototype.trim` set). -/
def wsChar (c : Char) : Bool :=
  c == ' ' || c == '\t' || c == '\n' || c == '\r' || c == '\x0b' || c == '\x0c'

/-- Trim whitespace from both ends of a character list (model of JS
`.trim()`). -/
def trimL (l : List Char) : List Char :=
  ((l.dropWhile wsChar).reverse.dropWhile wsChar).reverse

/-- Trim of a string, as used to state results about the enclosed JSON text. -/
def trimStr (s : String) : String := ⟨trimL s.data⟩

/-- First alternative of the code-fence-stripping regex:
the literal text between the two slashes of the first `.replace` call. -/
def fencePatA : List Char := "```json\n".data

/-- Second alternative of the first `.replace` call. -/
def fencePatB : List Char := "\n```".data

/-- The pattern of the second `.replace` call. -/
def tripleTick : List Char := "```".data

/-- One left-to-right scan of the first `.replace(/```json\n|\n```/g, '')`:
at each position the first alternative is tried, then the second; a match is
deleted and scanning resumes after it.  Fuel-indexed so the function reduces
by `rfl`; every recursive call spends one unit of fuel. -/
def replFenceF : Nat → List Char → List Char
  | 0, s => s
  | _ + 1, [] => []
  | f + 1, c :: cs =>
    if fencePatA.isPrefixOf (c :: cs) then replFenceF f ((c :: cs).drop 8)
    else if fencePatB.isPrefixOf (c :: cs) then replFenceF f ((c :: cs).drop 4)
    else c :: replFenceF f cs

/-- The first `.replace` of the source, with sufficient fuel. -/
def replFence (l : List Char) : List Char := replFenceF l.length l

/-- The second `.replace(/```/g, '')`, fuel-indexed. -/
def replTickF : Nat → List Char → List Char
  | 0, s => s
  | _ + 1, [] => []
  | f + 1, c :: cs =>
    if tripleTick.isPrefixOf (c :: cs) then replTickF f ((c :: cs).drop 3)
    else c :: replTickF f cs

/-- The second `.replace` of the source, with sufficient fuel. -/
def replTick (l : List Char) : List Char := replTickF l.length l

/-- `responseText.replace(/```json\n|\n```/g, '').replace(/```/g, '').trim()`
from `extractFinancialData` and `analyzeAudio`. -/
def stripFences (s : String) : String := ⟨trimL (replTick (replFence s.data))⟩

/-! ## JSON values and `JSON.parse` -/

/-- JSON values as produced by `JSON.parse`.  Number literals are kept as
their lexeme text; no claim depends on numeric evaluation. -/
inductive Json where
  | null : Json
  | bool : Bool → Json
  | num : String → Json
  | str : String → Json
  | arr : List Json → Json
  | obj : List (String × Json) → Json

/-- Whitespace accepted between JSON tokens (the four characters of the JSON
grammar, as accepted by `JSON.parse`). -/
def jsonWsChar (c : Char) : Bool :=
  c == ' ' || c == '\t' || c == '\n' || c == '\r'

/-- Hexadecimal digit value, for `\u` escapes: the position of the
(lower-cased) character among the sixteen hex digits. -/
def hexVal (c : Char) : Option Nat :=
  "0123456789abcdef".data.findIdx? (· == c.toLower)

/-- Single-character JSON string escapes (`\u` is handled separately). -/
def escChar : Char → Option Char
  | '"' => some '"'
  | '\\' => some '\\'
  | '/' => some '/'
  | 'b' => some '\x08'
  | 'f' => some '\x0c'
  | 'n' => some '\n'
  | 'r' => some '\r'
  | 't' => some '\t'
  | _ => none

/-- Parse a JSON string body after the opening quote; returns the decoded
characters and the rest of the input.  Raw control characters are rejected,
as by `JSON.parse`. -/
def pStr : Nat → List Char → Option (List Char × List Char)
  | 0, _ => none
  | _ + 1, [] => none
  | f + 1, c :: rest =>
    if c == '"' then some ([], rest)
    else if c == '\\' then
      match rest with
      | [] => none
      | e :: rest₂ =>
        match escChar e with
        | some ch =>
          match pStr f rest₂ with
          | some (body, rem) => some (ch :: body, rem)
          | none => none
        | none =>
          if e == 'u' then
            match rest₂ with
            | h₁ :: h₂ :: h₃ :: h₄ :: rest₃ =>
              match hexVal h₁, hexVal h₂, hexVal h₃, hexVal h₄ with
              | some a, some b, some cdig, some d =>
                match pStr f rest₃ with
                | some (body, rem) =>
                  some (Char.ofNat (((a * 16 + b) * 16 + cdig) * 16 + d) :: body, rem)
                | none => none
              | _, _, _, _ => none
            | _ => none
          else none
    else if c.toNat < 32 then none
    else
      match pStr f rest with
      | some (body, rem) => some (c :: body, rem)
      | none => none

/-- Parse the digits of a JSON integer part after its first digit:
a leading `0` takes no further digits, otherwise all following digits. -/
def pIntRest (c : Char) (s : List Char) : List Char × List Char :=
  if c == '0' then ([c], s)
  else (c :: s.takeWhile Char.isDigit, s.dropWhile Char.isDigit)

/-- Parse an optional fraction part `.digits`. -/
def pFrac (s : List Char) : Option (List Char × List Char) :=
  match s with
  | '.' :: r =>
    match r.takeWhile Char.isDigit with
    | [] => none
    | ds => some ('.' :: ds, r.dropWhile Char.isDigit)
  | _ => some ([], s)

/-- Parse an optional exponent part `(e|E)(+|-)?digits`. -/
def pExp (s : List Char) : Option (List Char × List Char) :=
  match s with
  | e :: r =>
    if e == 'e' || e == 'E' then
      let (sgn, r₂) :=
        match r with
        | c :: r₃ => if c == '+' || c == '-' then ([c], r₃) else (([] : List Char), r)
        | [] => ([], r)
      match r₂.takeWhile Char.isDigit with
      | [] => none
      | ds => some (e :: (sgn ++ ds), r₂.dropWhile Char.isDigit)
    else some ([], s)
  | [] => some ([], s)

/-- Parse a JSON number; returns its lexeme and the rest of the input. -/
def pNum (s : List Char) : Option (List Char × List Char) :=
  let (sgn, s₁) :=
    match s with
    | c :: r => if c == '-' then ([c], r) else (([] : List Char), s)
    | [] => ([], s)
  match s₁ with
  | c :: r =>
    if c.isDigit then
      let (ip, r₂) := pIntRest c r
      match pFrac r₂ with
      | some (fp, r₃) =>
        match pExp r₃ with
        | some (ep, r₄) => some (sgn ++ ip ++ fp ++ ep, r₄)
        | none => none
      | none => none
    else none
  | [] => none

mutual
/-- Parse one JSON value (after skipping leading whitespace). -/
def pVal : Nat → List Char → Option (Json × List Char)
  | 0, _ => none
  | f + 1, s =>
    match s.dropWhile jsonWsChar with
    | '\x7b' :: r =>
      match (r.dropWhile jsonWsChar) with
      | '\x7d' :: r₂ => some (Json.obj [], r₂)
      | r₁ => pMembers f r₁ []
    | '[' :: r =>
      match (r.dropWhile jsonWsChar) with
      | ']' :: r₂ => some (Json.arr [], r₂)
      | r₁ => pElems f r₁ []
    | '"' :: r =>
      match pStr (f + 1) r with
      | some (body, rem) => some (Json.str ⟨body⟩, rem)
      | none => none
    | 't' :: 'r' :: 'u' :: 'e' :: r => some (Json.bool true, r)
    | 'f' :: 'a' :: 'l' :: 's' :: 'e' :: r => some (Json.bool false, r)
    | 'n' :: 'u' :: 'l' :: 'l' :: r => some (Json.null, r)
    | s₁ =>
      match pNum s₁ with
      | some (lex, rem) => some (Json.num ⟨lex⟩, rem)
      | none => none

/-- Parse the members of a JSON object after its opening brace. -/
def pMembers : Nat → List Char → List (String × Json) → Option (Json × List Char)
  | 0, _, _ => none
  | f + 1, s, acc =>
    match s.dropWhile jsonWsChar with
    | '"' :: r =>
      match pStr (f + 1) r with
      | some (key, r₂) =>
        match r₂.dropWhile jsonWsChar with
        | ':' :: r₃ =>
          match pVal f r₃ with
          | some (v, r₄) =>
            match r₄.dropWhile jsonWsChar with
            | ',' :: r₅ => pMembers f r₅ (acc ++ [(⟨key⟩, v)])
            | '\x7d' :: r₅ => some (Json.obj (acc ++ [(⟨key⟩, v)]), r₅)
            | _ => none
          | none => none
        | _ => none
      | none => none
    | _ => none

/-- Parse the elements of a JSON array after its opening bracket. -/
def pElems : Nat → List Char → List Json → Option (Json × List Char)
  | 0, _, _ => none
  | f + 1, s, acc =>
    match pVal f s with
    | some (v, r) =>
      match r.dropWhile jsonWsChar with
      | ',' :: r₂ => pElems f r₂ (acc ++ [v])
      | ']' :: r₂ => some (Json.arr (acc ++ [v]), r₂)
      | _ => none
    | none => none
end

/-- `JSON.parse`: parse a complete JSON text; anything but trailing
whitespace after the value is an error.  The fuel bounds the number of
recursion steps; every two steps consume at least one input character, so
`4 * (length + 1)` is sufficient for every input. -/
def parseJson (s : String) : Option Json :=
  match pVal (4 * (s.data.length + 1)) s.data with
  | some (v, rest) => if (rest.dropWhile jsonWsChar).isEmpty then some v else none
  | none => none

/-- JS property access `v.k` on a parsed JSON value: `some` on an object
that has the key (last occurrence wins, as in `JSON.parse`), otherwise
`undefined`, modelled as `none`. -/
def jsonLookup (v : Json) (k : String) : Option Json :=
  match v with
  | Json.obj ms => ms.foldl (fun acc p => if p.1 == k then some p.2 else acc) none
  | _ => none

/-- JS truthiness of a parsed JSON value (`undefined` is handled by the
callers via `Option`).  A number is falsy exactly when its lexeme denotes
zero. -/
def numLexemeZero (s : String) : Bool :=
  ((s.data.takeWhile (fun c => !(c == 'e' || c == 'E'))).filter
    (fun c => !(c == '-' || c == '.'))).all (· == '0')

/-- JS truthiness of a JSON value. -/
def jsTruthy (j : Json) : Bool :=
  match j with
  | Json.null => false
  | Json.bool b => b
  | Json.num lex => !(numLexemeZero lex)
  | Json.str s => !(s == "")
  | Json.arr _ => true
  | Json.obj _ => true

/-! ## Extraction client (`src/lib/mastra`) -/

/-- Stand-in for the runtime-determined `SyntaxError` message produced by
`JSON.parse` on malformed input; no claim depends on its exact text. -/
def jsonParseErrMsg : String := "Unexpected token in JSON"

/-- `extractFinancialData(fileContent)`: the credential is read from the
environment (`apiKey`); the external model call is an input
(`modelResult`, either a thrown message or the response text).  The
response processing is the source's fence stripping followed by
`JSON.parse`; the parsed value is returned as-is (`data as
FinancialDocumentData`, no schema validation).  The surrounding catch
wraps any thrown message. -/
def extractFinancialData (apiKey : Option String)
    (modelResult : Except String String) : Except String Json :=
  let inner : Except String Json :=
    match apiKey with
    | none => Except.error "GEMINI_API_KEY is missing"
    | some _ =>
      match modelResult with
      | Except.error m => Except.error m
      | Except.ok text =>
        match parseJson (stripFences text) with
        | some v => Except.ok v
        | none => Except.error jsonParseErrMsg
  match inner with
  | Except.ok v => Except.ok v
  | Except.error m =>
    Except.error ("Failed to extract financial data from document: " ++ m)

/-- The record returned by `analyzeAudio`: the four properties it picks out
of the parsed response (`undefined`, i.e. `none`, when absent). -/
structure AudioResult where
  sentiment : Option Json
  speakers : Option Json
  topics : Option Json
  transcript : Option Json

/-- `analyzeAudio(filePath, fileType)`: checks the credential, reads the
referenced file (`readResult`, the outcome of `fs.readFileSync`), calls
the model (`modelResult`), strips fences, parses, and rebuilds the result
from four property accesses.  The catch wraps any thrown message.  The
`fileType` argument does not influence the model-call outcome here, which
is an explicit input. -/
def analyzeAudio (fileType : String) (apiKey : Option String)
    (readResult : Except String String)
    (modelResult : Except String String) : Except String AudioResult :=
  let _ := fileType
  let inner : Except String AudioResult :=
    match apiKey with
    | none => Except.error "GEMINI_API_KEY is missing"
    | some _ =>
      match readResult with
      | Except.error m => Except.error m
      | Except.ok _ =>
        match modelResult with
        | Except.error m => Except.error m
        | Except.ok text =>
          match parseJson (stripFences text) with
          | some v =>
            Except.ok ⟨jsonLookup v "sentiment", jsonLookup v "speakers",
              jsonLookup v "topics", jsonLookup v "transcript"⟩
          | none => Except.error jsonParseErrMsg
  match inner with
  | Except.ok a => Except.ok a
  | Except.error m =>
    Except.error ("Failed to analyze audio with Gemini: " ++ m)

/-! ## Document record store -/

/-- Terminal and initial processing states of a record. -/
inductive Status where
  | processing : Status
  | completed : Status
  | failed : Status
deriving DecidableEq

/-- A value persisted into a record field: either a parsed JSON value
passed through, or `new Date(j)` applied to a parsed value. -/
inductive PVal where
  | json : Json → PVal
  | date : Json → PVal

/-- The one document record addressed by the job's `documentId`.  `payload`
holds the variant fields (document or audio) by name. -/
structure DocRecord where
  status : Status
  processingError : Option String
  processedAt : Option Nat
  payload : List (String × PVal)

/-- An update object passed to `findByIdAndUpdate`.  Fields whose JS value
is `undefined` are stripped by the driver before the write and are simply
absent from `payload`. -/
structure RecUpdate where
  status : Status
  processingError : Option String
  payload : List (String × PVal)
  processedAt : Nat

/-- Field lookup in a record payload. -/
def getF (l : List (String × PVal)) (k : String) : Option PVal :=
  (l.find? (fun p => p.1 == k)).map (·.2)

/-- Merge an update payload over an existing one: updated keys take the new
value, all other keys keep their previous value. -/
def mergePayload (old new : List (String × PVal)) : List (String × PVal) :=
  new ++ old.filter (fun p => !(new.any (fun q => q.1 == p.1)))

/-- Apply an update to a record: `status` and `processedAt` are always in
the update; `processingError` only in the failure update, so the success
update leaves a previous value in place. -/
def applyUpdate (r : DocRecord) (u : RecUpdate) : DocRecord :=
  { status := u.status
    processingError :=
      match u.processingError with
      | some m => some m
      | none => r.processingError
    processedAt := some u.processedAt
    payload := mergePayload r.payload u.payload }

/-- Result of one `findByIdAndUpdate` call: the new store state and the
returned pre-update document (`null` when the identifier is absent, in
which case nothing is written). -/
structure WriteResult where
  db : Option DocRecord
  old : Option DocRecord

/-- `FinancialDocument.findByIdAndUpdate(documentId, update)` on the store
restricted to the one record the job addresses. -/
def findByIdAndUpdate (db : Option DocRecord) (u : RecUpdate) : WriteResult :=
  match db with
  | none => ⟨none, none⟩
  | some r => ⟨some (applyUpdate r u), some r⟩

/-- Number of records actually mutated by a `findByIdAndUpdate` call. -/
def writeCount (w : WriteResult) : Nat :=
  match w.old with
  | some _ => 1
  | none => 0

/-- The failure update written in the catch blocks of both jobs' step 3:
`status: FAILED`, `processingError: <message>`, `processedAt: new Date()`. -/
def failUpdate (m : String) (now : Nat) : RecUpdate :=
  ⟨Status.failed, some m, [], now⟩

/-! ## Job handlers (`src/lib/inngest/functions`) -/

/-- A payload entry copied verbatim from the extracted object; an absent
property is `undefined` and is stripped from the update. -/
def plainField (v : Json) (k : String) : List (String × PVal) :=
  match jsonLookup v k with
  | some j => [(k, PVal.json j)]
  | none => []

/-- A payload entry of the form `x ? new Date(x) : undefined`. -/
def dateField (v : Json) (k : String) : List (String × PVal) :=
  match jsonLookup v k with
  | some j => if jsTruthy j then [(k, PVal.date j)] else []
  | none => []

/-- The field list of the document job's success update, in source order. -/
def docPayload (v : Json) : List (String × PVal) :=
  plainField v "documentType" ++ plainField v "invoiceNumber" ++
  dateField v "invoiceDate" ++ dateField v "dueDate" ++
  plainField v "vendorName" ++ plainField v "vendorAddress" ++
  plainField v "clientName" ++ plainField v "clientAddress" ++
  plainField v "subtotal" ++ plainField v "taxAmount" ++
  plainField v "totalAmount" ++ plainField v "currency" ++
  plainField v "lineItems"

/-- The document job's success update: `status: COMPLETED`, the extracted
fields, and `processedAt: new Date()`. -/
def docSuccessUpdate (v : Json) (now : Nat) : RecUpdate :=
  ⟨Status.completed, none, docPayload v, now⟩

/-- `transcript: analysisData.transcript || "Transcript not available"`. -/
def transcriptVal (t : Option Json) : Json :=
  match t with
  | some j => if jsTruthy j then j else Json.str "Transcript not available"
  | none => Json.str "Transcript not available"

/-- An audio payload entry copied verbatim (stripped when `undefined`). -/
def audioField (k : String) (o : Option Json) : List (String × PVal) :=
  match o with
  | some j => [(k, PVal.json j)]
  | none => []

/-- The audio job's success update. -/
def audioSuccessUpdate (a : AudioResult) (now : Nat) : RecUpdate :=
  ⟨Status.completed, none,
    ("transcript", PVal.json (transcriptVal a.transcript)) ::
      (audioField "sentiment" a.sentiment ++ audioField "speakers" a.speakers ++
        audioField "topics" a.topics),
    now⟩

/-- Environment of one document-job execution: the event payload, the
external effects it will observe, and the store state for its record.
`writeFault` injects a store-transport failure of the success write (the
failure write is assumed not to fail, per the stated assumption of the
spec). -/
structure DocJobEnv where
  documentId : String
  filePath : String
  apiKey : Option String
  fileExists : Bool
  readResult : Except String String
  modelResult : Except String String
  writeFault : Option String
  db : Option DocRecord
  now : Nat

/-- Step 1 `read-file`: existence check, read, and the catch that wraps any
thrown message. -/
def docStep1 (e : DocJobEnv) : Except String String :=
  if e.fileExists then
    match e.readResult with
    | Except.ok c => Except.ok c
    | Except.error m => Except.error ("Failed to read uploaded file: " ++ m)
  else
    Except.error ("Failed to read uploaded file: " ++
      ("File not found at path: " ++ e.filePath))

/-- Step 2 `extract-data-with-ai`: the extraction call and the catch that
wraps any thrown message. -/
def docStep2 (e : DocJobEnv) : Except String Json :=
  match extractFinancialData e.apiKey e.modelResult with
  | Except.ok v => Except.ok v
  | Except.error m => Except.error ("AI Extraction Failed: " ++ m)

/-- Steps 1 and 2 in sequence, as observed by step 3. -/
def docStep12 (e : DocJobEnv) : Except String Json :=
  match docStep1 e with
  | Except.error m => Except.error m
  | Except.ok _ => docStep2 e

/-- The shared step-3 body (`update-database` in both jobs): the success
write; on a `null` result the not-found error is thrown; any error thrown
inside the `try` triggers the failure write and is re-thrown. -/
def persistOutcome (db : Option DocRecord) (writeFault : Option String)
    (documentId : String) (now : Nat) (u : RecUpdate) :
    Option DocRecord × Nat × Except String Unit :=
  match writeFault with
  | some m =>
    let w := findByIdAndUpdate db (failUpdate m now)
    (w.db, writeCount w, Except.error m)
  | none =>
    let w₁ := findByIdAndUpdate db u
    match w₁.old with
    | some _ => (w₁.db, writeCount w₁, Except.ok ())
    | none =>
      let m := "Document with ID " ++ documentId ++ " not found"
      let w₂ := findByIdAndUpdate w₁.db (failUpdate m now)
      (w₂.db, writeCount w₁ + writeCount w₂, Except.error m)

/-- Final state of a document-job execution: the store, the outcome (the
returned `{documentId, status: 'completed'}` pair or the propagated
error), whether the extraction capability was invoked, and how many record
mutations were applied. -/
structure DocJobOut where
  db : Option DocRecord
  outcome : Except String (String × String)
  extractCalled : Bool
  writes : Nat

/-- The handler of `app/document.uploaded` (`processFinancialDocument`):
the three steps in sequence; an error thrown by any step aborts the
execution and propagates, there being no surrounding catch. -/
def processFinancialDocument (e : DocJobEnv) : DocJobOut :=
  match docStep1 e with
  | Except.error m => ⟨e.db, Except.error m, false, 0⟩
  | Except.ok _ =>
    match docStep2 e with
    | Except.error m => ⟨e.db, Except.error m, true, 0⟩
    | Except.ok v =>
      match persistOutcome e.db e.writeFault e.documentId e.now
          (docSuccessUpdate v e.now) with
      | (db₂, n, Except.ok _) =>
        ⟨db₂, Except.ok (e.documentId, "completed"), true, n⟩
      | (db₂, n, Except.error m) => ⟨db₂, Except.error m, true, n⟩

/-- Environment of one audio-job execution. -/
structure AudioJobEnv where
  documentId : String
  filePath : String
  apiKey : Option String
  fileExists : Bool
  readResult : Except String String
  modelResult : Except String String
  writeFault : Option String
  db : Option DocRecord
  now : Nat

/-- JS `filePath.endsWith('.wav')`. -/
def strEndsWith (s suffix : String) : Bool :=
  suffix.data.isSuffixOf s.data

/-- The mime type the audio job passes to `analyzeAudio`, computed from the
file path alone. -/
def audioMime (filePath : String) : String :=
  if strEndsWith filePath ".wav" then "audio/wav" else "audio/mp3"

/-- Step 1 `analyze-audio-gemini`: existence check, mime-type selection,
the `analyzeAudio` call, and the catch that wraps any thrown message.
Also reports which mime type was passed, when the call was made. -/
def audioStep1 (e : AudioJobEnv) : Except String AudioResult × Option String :=
  if e.fileExists then
    let ft := audioMime e.filePath
    match analyzeAudio ft e.apiKey e.readResult e.modelResult with
    | Except.ok a => (Except.ok a, some ft)
    | Except.error m =>
      (Except.error ("Failed to analyze audio with Gemini: " ++ m), some ft)
  else
    (Except.error ("Failed to analyze audio with Gemini: " ++
      ("Audio file not found at path: " ++ e.filePath)), none)

/-- Final state of an audio-job execution. -/
structure AudioJobOut where
  db : Option DocRecord
  outcome : Except String (String × String)
  mimeUsed : Option String
  writes : Nat

/-- The handler of `app/audio.uploaded` (`processFinancialAudio`). -/
def processFinancialAudio (e : AudioJobEnv) : AudioJobOut :=
  match audioStep1 e with
  | (Except.error m, mu) => ⟨e.db, Except.error m, mu, 0⟩
  | (Except.ok a, mu) =>
    match persistOutcome e.db e.writeFault e.documentId e.now
        (audioSuccessUpdate a e.now) with
    | (db₂, n, Except.ok _) =>
      ⟨db₂, Except.ok (e.documentId, "completed"), mu, n⟩
    | (db₂, n, Except.error m) => ⟨db₂, Except.error m, mu, n⟩

/-! ## Concrete executions used by the claim theorems -/

/-- A record as created by the upload endpoint: `status = PROCESSING`, no
extracted fields, nothing processed yet. -/
def procRec : DocRecord := ⟨Status.processing, none, none, []⟩

/-- A document-job execution whose source file is missing. -/
def c1Env : DocJobEnv :=
  ⟨"d1", "/tmp/invoice.pdf", some "key", false, Except.ok "", Except.ok "",
    none, some procRec, 5⟩

/-- An audio-job execution whose source file is missing. -/
def c1AEnv : AudioJobEnv :=
  ⟨"d9", "/tmp/a.mp3", some "key", false, Except.ok "", Except.ok "",
    none, some procRec, 5⟩

/-- A document-job execution whose model call fails in step 2. -/
def c2Env : DocJobEnv :=
  ⟨"d7", "/tmp/inv.txt", some "key", true, Except.ok "text",
    Except.error "model down", none, some procRec, 9⟩

/-- A document-job execution that succeeds end to end. -/
def c2EnvW : DocJobEnv :=
  ⟨"d1", "/tmp/f.txt", some "key", true, Except.ok "c",
    Except.ok "\x7b\x7d", none, some procRec, 3⟩

/-- An audio-job execution that succeeds end to end. -/
def c2AEnvW : AudioJobEnv :=
  ⟨"d2", "/tmp/f.mp3", some "key", true, Except.ok "bytes",
    Except.ok "\x7b\x7d", none, some procRec, 3⟩

/-- A document-job execution whose source file is missing (claim C3). -/
def c3Env : DocJobEnv :=
  ⟨"d3", "/tmp/r.png", some "key", false, Except.ok "", Except.ok "x",
    none, some procRec, 4⟩

/-- A document-job execution whose extraction call raises (claim C4). -/
def c4Env : DocJobEnv :=
  ⟨"d4", "/tmp/b.pdf", some "key", true, Except.ok "content",
    Except.error "quota exceeded", none, some procRec, 6⟩

/-- A document-job execution addressing an absent record. -/
def c5Env : DocJobEnv :=
  ⟨"d5", "/tmp/q.txt", some "key", true, Except.ok "c",
    Except.ok "\x7b\x7d", none, none, 8⟩

/-- An audio-job execution addressing an absent record. -/
def c5AEnv : AudioJobEnv :=
  ⟨"d6", "/tmp/q.mp3", some "key", true, Except.ok "bytes",
    Except.ok "\x7b\x7d", none, none, 8⟩

/-- A model response lacking a `currency` field (claim C7). -/
def c7Resp : String := "\x7b\"documentType\":\"Invoice\",\"totalAmount\":500\x7d"

/-- Its parse result. -/
def c7Val : Json :=
  Json.obj [("documentType", Json.str "Invoice"), ("totalAmount", Json.num "500")]

/-- An audio-job execution whose analysis result has `transcript: null`. -/
def c9AEnv : AudioJobEnv :=
  ⟨"d2", "/tmp/call.mp3", some "key", true, Except.ok "bytes",
    Except.ok "\x7b\"transcript\":null,\"sentiment\":\"Positive\"\x7d",
    none, some procRec, 11⟩

/-- An audio-job execution whose analysis result has a non-empty
transcript string. -/
def c9WEnv : AudioJobEnv :=
  ⟨"d2", "/tmp/call.mp3", some "key", true, Except.ok "bytes",
    Except.ok "\x7b\"transcript\":\"hello\"\x7d", none, some procRec, 11⟩

/-- The record persisted by `c9WEnv`'s execution. -/
def c9WRec : DocRecord :=
  ⟨Status.completed, none, some 11, [("transcript", PVal.json (Json.str "hello"))]⟩

/-- An audio-job execution on a `.wav` path. -/
def c10aEnv : AudioJobEnv :=
  ⟨"d2", "/tmp/call.wav", some "key", true, Except.ok "bytes",
    Except.ok "\x7b\x7d", none, some procRec, 2⟩

/-- The same event with different file content and model behaviour. -/
def c10bEnv : AudioJobEnv :=
  ⟨"d2", "/tmp/call.wav", some "key", true, Except.ok "other bytes",
    Except.error "network", none, some procRec, 2⟩

/-! ## Lemmas about the fence stripping -/

theorem pfxBridge (l₁ l₂ : List Char) : l₁.isPrefixOf l₂ = true ↔ l₁ <+: l₂ :=
  List.isPrefixOf_iff_prefix

theorem fencePatA_eq :
    fencePatA = tk :: tk :: tk :: 'j' :: 's' :: 'o' :: 'n' :: '\n' :: [] := by decide

theorem fencePatB_eq : fencePatB = '\n' :: tk :: tk :: tk :: [] := by decide

theorem tripleTick_eq : tripleTick = tk :: tk :: tk :: [] := by decide

theorem tkNeNl : (tk == '\n') = false := by decide

theorem nlNeTk : ('\n' == tk) = false := by decide

theorem jNeNl : ('j' == '\n') = false := by decide

/-- If three consecutive backticks occur nowhere in `l`, the triple-backtick
pattern matches at no position of `l ++ "\n```"` that starts inside `l`. -/
theorem ttNotPrefix (l : List Char) (h : ¬ tripleTick <:+: l) :
    tripleTick.isPrefixOf (l ++ fencePatB) = false := by
  match l with
  | [] => decide
  | [a] =>
    simp [tripleTick_eq, fencePatB_eq, List.isPrefixOf, tkNeNl]
  | [a, b] =>
    simp [tripleTick_eq, fencePatB_eq, List.isPrefixOf, tkNeNl]
  | a :: b :: d :: l' =>
    cases hpb : tripleTick.isPrefixOf (a :: b :: d :: l' ++ fencePatB) with
    | false => rfl
    | true =>
      exfalso
      rw [tripleTick_eq] at hpb
      simp [List.isPrefixOf, Bool.and_eq_true, beq_iff_eq] at hpb
      obtain ⟨ha, hb, hd⟩ := hpb
      exact h ⟨[], l', by rw [tripleTick_eq, ← ha, ← hb, ← hd]; rfl⟩

/-- The first regex alternative starts with three backticks, so it cannot
match from inside `l` either. -/
theorem patANotPrefix (l : List Char) (h : ¬ tripleTick <:+: l) :
    fencePatA.isPrefixOf (l ++ fencePatB) = false := by
  cases hpb : fencePatA.isPrefixOf (l ++ fencePatB) with
  | false => rfl
  | true =>
    exfalso
    have hA : fencePatA <+: (l ++ fencePatB) := (pfxBridge _ _).mp hpb
    have hT : tripleTick <+: fencePatA := by decide
    have : tripleTick.isPrefixOf (l ++ fencePatB) = true :=
      (pfxBridge _ _).mpr (hT.trans hA)
    rw [ttNotPrefix l h] at this
    exact Bool.false_ne_true this

theorem patB_cons (c : Char) (x : List Char) :
    fencePatB.isPrefixOf (c :: x) = (('\n' == c) && tripleTick.isPrefixOf x) := by
  rw [fencePatB_eq, tripleTick_eq]
  rfl

theorem replFenceF_nil (f : Nat) : replFenceF f [] = [] := by
  cases f <;> rfl

/-- Matching the second alternative on exactly the trailing `"\n```"`
deletes it. -/
theorem replFence_patB (f : Nat) : replFenceF (f + 1) fencePatB = [] := by
  have hA : fencePatA.isPrefixOf ('\n' :: tk :: tk :: tk :: []) = false := by decide
  have hB : fencePatB.isPrefixOf ('\n' :: tk :: tk :: tk :: []) = true := by decide
  conv_lhs => rw [fencePatB_eq]
  simp [replFenceF, hA, hB, replFenceF_nil]

theorem replFence_skip (f : Nat) (c : Char) (cs : List Char)
    (hA : fencePatA.isPrefixOf (c :: cs) = false)
    (hB : fencePatB.isPrefixOf (c :: cs) = false) :
    replFenceF (f + 1) (c :: cs) = c :: replFenceF f cs := by
  simp [replFenceF, hA, hB]

/-- The first replace leaves `l` intact and deletes the trailing `"\n```"`,
when `l` contains no triple backtick. -/
theorem replFenceF_key (l : List Char) (f : Nat) (hf : l.length + 4 ≤ f)
    (h : ¬ tripleTick <:+: l) : replFenceF f (l ++ fencePatB) = l := by
  induction l generalizing f with
  | nil =>
    match f, hf with
    | f' + 1, _ =>
      rw [List.nil_append]
      exact replFence_patB f'
  | cons c l' ih =>
    match f, hf with
    | f' + 1, hf =>
      have h' : ¬ tripleTick <:+: l' := fun hx => h (List.infix_cons hx)
      have hA : fencePatA.isPrefixOf ((c :: l') ++ fencePatB) = false :=
        patANotPrefix (c :: l') h
      have hB : fencePatB.isPrefixOf (c :: (l' ++ fencePatB)) = false := by
        rw [patB_cons, ttNotPrefix l' h', Bool.and_false]
      rw [List.cons_append]
      rw [List.cons_append] at hA
      rw [replFence_skip f' c (l' ++ fencePatB) hA hB]
      rw [ih f' (by simp at hf ⊢; omega) h']

/-- The first replace on a `json`-tagged fenced text: the leading
`"```json\n"` and trailing `"\n```"` are deleted, the body preserved. -/
theorem replFenceF_tagged (J : List Char) (f : Nat) (hf : J.length + 12 ≤ f)
    (h : ¬ tripleTick <:+: J) :
    replFenceF f (fencePatA ++ (J ++ fencePatB)) = J := by
  match f, hf with
  | f' + 1, hf =>
    have hA : fencePatA.isPrefixOf (fencePatA ++ (J ++ fencePatB)) = true :=
      (pfxBridge _ _).mpr (List.prefix_append _ _)
    have hdrop : (fencePatA ++ (J ++ fencePatB)).drop 8 = J ++ fencePatB := by
      rw [show (8 : Nat) = fencePatA.length from by decide]
      exact List.drop_left _ _
    have hcons : ∃ c cs, fencePatA ++ (J ++ fencePatB) = c :: cs :=
      ⟨tk, "``json\n".data ++ (J ++ fencePatB), by rw [fencePatA_eq]; rfl⟩
    obtain ⟨c, cs, hc⟩ := hcons
    rw [hc]
    rw [hc] at hA hdrop
    have step : replFenceF (f' + 1) (c :: cs) = replFenceF f' ((c :: cs).drop 8) := by
      simp [replFenceF, hA]
    rw [step, hdrop]
    exact replFenceF_key J f' (by omega) h

/-- The first replace on a bare fenced text: only the trailing `"\n```"`
is deleted; the leading `"```\n"` matches neither alternative. -/
theorem replFenceF_bare (J : List Char) (f : Nat) (hf : J.length + 8 ≤ f)
    (h : ¬ tripleTick <:+: J) :
    replFenceF f (tk :: tk :: tk :: '\n' :: (J ++ fencePatB)) =
      tk :: tk :: tk :: '\n' :: J := by
  have hA₁ : fencePatA.isPrefixOf (tk :: tk :: tk :: '\n' :: (J ++ fencePatB)) = false := by
    rw [fencePatA_eq]
    simp [List.isPrefixOf, jNeNl]
  have hB₁ : fencePatB.isPrefixOf (tk :: tk :: tk :: '\n' :: (J ++ fencePatB)) = false := by
    rw [patB_cons, nlNeTk, Bool.false_and]
  have hA₂ : fencePatA.isPrefixOf (tk :: tk :: '\n' :: (J ++ fencePatB)) = false := by
    rw [fencePatA_eq]
    simp [List.isPrefixOf, tkNeNl]
  have hB₂ : fencePatB.isPrefixOf (tk :: tk :: '\n' :: (J ++ fencePatB)) = false := by
    rw [patB_cons, nlNeTk, Bool.false_and]
  have hA₃ : fencePatA.isPrefixOf (tk :: '\n' :: (J ++ fencePatB)) = false := by
    rw [fencePatA_eq]
    simp [List.isPrefixOf, tkNeNl]
  have hB₃ : fencePatB.isPrefixOf (tk :: '\n' :: (J ++ fencePatB)) = false := by
    rw [patB_cons, nlNeTk, Bool.false_and]
  have hA₄ : fencePatA.isPrefixOf ('\n' :: (J ++ fencePatB)) = false := by
    rw [fencePatA_eq]
    simp [List.isPrefixOf, tkNeNl]
  have hB₄ : fencePatB.isPrefixOf ('\n' :: (J ++ fencePatB)) = false := by
    rw [patB_cons, beq_self_eq_true, Bool.true_and]
    exact ttNotPrefix J h
  match f, hf with
  | f₄ + 4, hf =>
    show replFenceF ((f₄ + 3) + 1) _ = _
    rw [replFence_skip _ _ _ hA₁ hB₁]
    show _ :: replFenceF ((f₄ + 2) + 1) _ = _
    rw [replFence_skip _ _ _ hA₂ hB₂]
    show _ :: _ :: replFenceF ((f₄ + 1) + 1) _ = _
    rw [replFence_skip _ _ _ hA₃ hB₃]
    rw [replFence_skip _ _ _ hA₄ hB₄]
    rw [replFenceF_key J f₄ (by omega) h]

theorem replTickF_nil (f : Nat) : replTickF f [] = [] := by
  cases f <;> rfl

theorem replTick_skip (f : Nat) (c : Char) (cs : List Char)
    (h : tripleTick.isPrefixOf (c :: cs) = false) :
    replTickF (f + 1) (c :: cs) = c :: replTickF f cs := by
  simp [replTickF, h]

/-- The second replace is the identity on text without triple backticks. -/
theorem replTickF_id (l : List Char) (f : Nat) (hf : l.length ≤ f)
    (h : ¬ tripleTick <:+: l) : replTickF f l = l := by
  induction l generalizing f with
  | nil => exact replTickF_nil f
  | cons c l' ih =>
    match f, hf with
    | f' + 1, hf =>
      have hH : tripleTick.isPrefixOf (c :: l') = false := by
        cases hv : tripleTick.isPrefixOf (c :: l') with
        | false => rfl
        | true => exact absurd (((pfxBridge _ _).mp hv).isInfix) h
      have h' : ¬ tripleTick <:+: l' := fun hx => h (List.infix_cons hx)
      rw [replTick_skip _ _ _ hH, ih f' (by simp at hf ⊢; omega) h']

/-- The second replace deletes the leading triple backtick left over from a
bare fence. -/
theorem replTickF_bare (J : List Char) (f : Nat) (hf : J.length + 4 ≤ f)
    (h : ¬ tripleTick <:+: J) :
    replTickF f (tk :: tk :: tk :: '\n' :: J) = '\n' :: J := by
  match f, hf with
  | f₁ + 1, hf =>
    have hT : tripleTick.isPrefixOf (tk :: tk :: tk :: '\n' :: J) = true := by
      rw [tripleTick_eq]
      simp [List.isPrefixOf]
    have step : replTickF (f₁ + 1) (tk :: tk :: tk :: '\n' :: J) =
        replTickF f₁ ('\n' :: J) := by
      simp [replTickF, hT]
    rw [step]
    have hH : tripleTick.isPrefixOf ('\n' :: J) = false := by
      rw [tripleTick_eq]
      simp [List.isPrefixOf, tkNeNl]
    match f₁, hf with
    | f₂ + 1, hf =>
      rw [replTick_skip _ _ _ hH, replTickF_id J f₂ (by omega) h]

theorem wsNl : wsChar '\n' = true := by decide

theorem trimL_cons_nl (l : List Char) : trimL ('\n' :: l) = trimL l := by
  simp [trimL, List.dropWhile_cons_of_pos wsNl]

/-- Claim C6 (amended): for a model response that wraps a JSON text `J` in
a leading/trailing triple-backtick fence (tagged `json` or bare), the
client's stripping yields exactly `J` trimmed — hence `JSON.parse` sees the
enclosed JSON itself and returns its parse result — provided `J` contains
no triple-backtick sequence.  (Without that proviso the second, global
replace also deletes backtick runs inside the JSON; see the
counterexample.) -/
theorem claim_C6_amended (J : String) (h : ¬ tripleTick <:+: J.data) :
    stripFences ("```json\n" ++ J ++ "\n```") = trimStr J ∧
    stripFences ("```\n" ++ J ++ "\n```") = trimStr J ∧
    parseJson (stripFences ("```json\n" ++ J ++ "\n```")) = parseJson (trimStr J) := by
  have hlenA : fencePatA.length = 8 := by decide
  have hlenB : fencePatB.length = 4 := by decide
  have hT : ("```json\n" ++ J ++ "\n```").data = fencePatA ++ (J.data ++ fencePatB) := by
    rw [String.data_append, String.data_append, List.append_assoc]
    rfl
  have hB : ("```\n" ++ J ++ "\n```").data =
      tk :: tk :: tk :: '\n' :: (J.data ++ fencePatB) := by
    rw [String.data_append, String.data_append, List.append_assoc]
    rw [show "```\n".data = tk :: tk :: tk :: '\n' :: [] from by decide]
    rfl
  have h1 : stripFences ("```json\n" ++ J ++ "\n```") = trimStr J := by
    have hfT : J.data.length + 12 ≤ (fencePatA ++ (J.data ++ fencePatB)).length := by
      rw [List.length_append, List.length_append, hlenA, hlenB]
      omega
    unfold stripFences replFence replTick
    rw [hT, replFenceF_tagged J.data _ hfT h,
      replTickF_id J.data _ (le_refl _) h]
    rfl
  have h2 : stripFences ("```\n" ++ J ++ "\n```") = trimStr J := by
    have hfB : J.data.length + 8 ≤
        (tk :: tk :: tk :: '\n' :: (J.data ++ fencePatB)).length := by
      simp [List.length_append, hlenB]
    unfold stripFences replFence replTick
    rw [hB, replFenceF_bare J.data _ hfB h]
    have hfB₂ : J.data.length + 4 ≤ (tk :: tk :: tk :: '\n' :: J.data).length := by
      simp
    rw [replTickF_bare J.data _ hfB₂ h, trimL_cons_nl]
    rfl
  exact ⟨h1, h2, by rw [h1]⟩

/-- Claim C6 witness: a concrete fenced JSON object is stripped to exactly
the enclosed text. -/
theorem claim_C6_witness :
    (¬ tripleTick <:+: "\x7b\"a\": 1\x7d".data) ∧
    stripFences ("```json\n" ++ "\x7b\"a\": 1\x7d" ++ "\n```") =
      trimStr "\x7b\"a\": 1\x7d" := by
  have h : ¬ tripleTick <:+: "\x7b\"a\": 1\x7d".data := by decide
  exact ⟨h, (claim_C6_amended "\x7b\"a\": 1\x7d" h).1⟩

/-- Claim C6 counterexample: a valid JSON object wrapped in a tagged code
fence whose string content contains a triple backtick.  The stripping also
deletes the interior backticks, so parsing succeeds but does not return
the parse of the enclosed JSON. -/
theorem claim_C6_counterexample :
    parseJson (stripFences "```json\n\x7b\"a\":\"x```y\"\x7d\n```") =
      some (Json.obj [("a", Json.str "xy")]) ∧
    parseJson "\x7b\"a\":\"x```y\"\x7d" =
      some (Json.obj [("a", Json.str "x```y")]) ∧
    Json.obj [("a", Json.str "xy")] ≠ Json.obj [("a", Json.str "x```y")] := by
  refine ⟨rfl, rfl, ?_⟩
  intro heq
  simp only [Json.obj.injEq, List.cons.injEq, Prod.mk.injEq, Json.str.injEq] at heq
  exact absurd heq.1.2 (by decide)

/-! ## Lemmas about the job handlers -/

/-- Decompose a successful run of steps 1 and 2. -/
theorem docStep12_ok (e : DocJobEnv) (v : Json) (h : docStep12 e = Except.ok v) :
    ∃ c, docStep1 e = Except.ok c ∧ docStep2 e = Except.ok v := by
  cases hs1 : docStep1 e with
  | error m1 => simp [docStep12, hs1] at h
  | ok c =>
    refine ⟨c, rfl, ?_⟩
    simpa [docStep12, hs1] using h

/-- Rebuild the pair returned by the audio job's first step from a fact
about its first component. -/
theorem audioStep1_pair (ea : AudioJobEnv) (a : AudioResult)
    (ha : (audioStep1 ea).1 = Except.ok a) :
    ∃ mu, audioStep1 ea = (Except.ok a, mu) :=
  ⟨(audioStep1 ea).2, by rw [← ha]⟩

/-- Claim C1 (amended): a failure raised at step 1 or step 2 of either job
is re-raised out of the job execution with no record mutation at all — the
store is left exactly as it was; the `FAILED`/`processingError`/
`processedAt` write occurs only for failures raised inside step 3's `try`
block, not for step-1/2 failures as the claim states. -/
theorem claim_C1_amended (e : DocJobEnv) (ea : AudioJobEnv) (m ma : String)
    (h : docStep12 e = Except.error m)
    (ha : (audioStep1 ea).1 = Except.error ma) :
    (processFinancialDocument e).db = e.db ∧
    (processFinancialDocument e).writes = 0 ∧
    (processFinancialDocument e).outcome = Except.error m ∧
    (processFinancialAudio ea).db = ea.db ∧
    (processFinancialAudio ea).writes = 0 ∧
    (processFinancialAudio ea).outcome = Except.error ma := by
  have hpair : audioStep1 ea = (Except.error ma, (audioStep1 ea).2) := by
    rw [← ha]
  have haud : (processFinancialAudio ea).db = ea.db ∧
      (processFinancialAudio ea).writes = 0 ∧
      (processFinancialAudio ea).outcome = Except.error ma := by
    rw [processFinancialAudio, hpair]
    exact ⟨rfl, rfl, rfl⟩
  cases hs1 : docStep1 e with
  | error m1 =>
    have hm : m1 = m := by simpa [docStep12, hs1] using h
    subst hm
    rw [processFinancialDocument, hs1]
    exact ⟨rfl, rfl, rfl, haud.1, haud.2.1, haud.2.2⟩
  | ok c =>
    cases hs2 : docStep2 e with
    | error m2 =>
      have hm : m2 = m := by simpa [docStep12, hs1, hs2] using h
      subst hm
      rw [processFinancialDocument, hs1, hs2]
      exact ⟨rfl, rfl, rfl, haud.1, haud.2.1, haud.2.2⟩
    | ok v => simp [docStep12, hs1, hs2] at h

/-- Claim C1 counterexample: a document-job execution whose file is missing
(step-1 failure) re-raises the error but leaves the record untouched — it
is still `PROCESSING` with no `processingError` and no `processedAt`,
contradicting the claimed `FAILED` write. -/
theorem claim_C1_counterexample :
    processFinancialDocument c1Env =
      ⟨some procRec,
        Except.error
          "Failed to read uploaded file: File not found at path: /tmp/invoice.pdf",
        false, 0⟩ ∧
    procRec.status = Status.processing ∧ procRec.processingError = none ∧
    procRec.processedAt = none :=
  ⟨rfl, rfl, rfl, rfl⟩

/-- Claim C1 witness. -/
theorem claim_C1_witness :
    (processFinancialDocument c1Env).db = some procRec ∧
    (processFinancialDocument c1Env).writes = 0 ∧
    (processFinancialAudio c1AEnv).db = some procRec ∧
    (processFinancialAudio c1AEnv).writes = 0 := by
  have h := claim_C1_amended c1Env c1AEnv
    "Failed to read uploaded file: File not found at path: /tmp/invoice.pdf"
    "Failed to analyze audio with Gemini: Audio file not found at path: /tmp/a.mp3"
    rfl rfl
  exact ⟨h.1, h.2.1, h.2.2.2.1, h.2.2.2.2.1⟩

/-- Claim C2 (amended): a job execution that completes steps 1–2 and
reaches step 3 performs exactly one record mutation when the target record
exists — the success write if it succeeds, otherwise the failure write,
never both — and zero mutations when it does not; the applied write sets
`processedAt` (and `COMPLETED`, respectively `FAILED` with
`processingError`).  Executions that fail at step 1 or 2 perform no
mutation at all, so "exactly one mutation per job execution" does not hold
unconditionally. -/
theorem claim_C2_amended (e : DocJobEnv) (ea : AudioJobEnv) (v : Json) (a : AudioResult)
    (h : docStep12 e = Except.ok v)
    (ha : (audioStep1 ea).1 = Except.ok a) :
    ((processFinancialDocument e).writes ≤ 1 ∧ (processFinancialAudio ea).writes ≤ 1) ∧
    (e.db = none → (processFinancialDocument e).writes = 0) ∧
    (ea.db = none → (processFinancialAudio ea).writes = 0) ∧
    (∀ r, e.db = some r →
      (processFinancialDocument e).writes = 1 ∧
      (e.writeFault = none →
        (processFinancialDocument e).db =
          some (applyUpdate r (docSuccessUpdate v e.now)) ∧
        (applyUpdate r (docSuccessUpdate v e.now)).status = Status.completed ∧
        (applyUpdate r (docSuccessUpdate v e.now)).processedAt = some e.now ∧
        (processFinancialDocument e).outcome = Except.ok (e.documentId, "completed")) ∧
      (∀ m, e.writeFault = some m →
        (processFinancialDocument e).db = some (applyUpdate r (failUpdate m e.now)) ∧
        (applyUpdate r (failUpdate m e.now)).status = Status.failed ∧
        (applyUpdate r (failUpdate m e.now)).processingError = some m ∧
        (applyUpdate r (failUpdate m e.now)).processedAt = some e.now ∧
        (processFinancialDocument e).outcome = Except.error m)) ∧
    (∀ r, ea.db = some r →
      (processFinancialAudio ea).writes = 1 ∧
      (ea.writeFault = none →
        (processFinancialAudio ea).db =
          some (applyUpdate r (audioSuccessUpdate a ea.now)) ∧
        (applyUpdate r (audioSuccessUpdate a ea.now)).status = Status.completed ∧
        (applyUpdate r (audioSuccessUpdate a ea.now)).processedAt = some ea.now ∧
        (processFinancialAudio ea).outcome = Except.ok (ea.documentId, "completed")) ∧
      (∀ m, ea.writeFault = some m →
        (processFinancialAudio ea).db = some (applyUpdate r (failUpdate m ea.now)) ∧
        (applyUpdate r (failUpdate m ea.now)).status = Status.failed ∧
        (applyUpdate r (failUpdate m ea.now)).processingError = some m ∧
        (processFinancialAudio ea).outcome = Except.error m)) := by
  obtain ⟨c, hs1, hs2⟩ := docStep12_ok e v h
  obtain ⟨mu, hpair⟩ := audioStep1_pair ea a ha
  refine ⟨⟨?_, ?_⟩, ?_, ?_, ?_, ?_⟩
  · cases hdb : e.db with
    | none => cases hwf : e.writeFault <;>
        simp [processFinancialDocument, hs1, hs2, persistOutcome,
          findByIdAndUpdate, writeCount, hdb, hwf]
    | some r => cases hwf : e.writeFault <;>
        simp [processFinancialDocument, hs1, hs2, persistOutcome,
          findByIdAndUpdate, writeCount, hdb, hwf]
  · cases hdb : ea.db with
    | none => cases hwf : ea.writeFault <;>
        simp [processFinancialAudio, hpair, persistOutcome,
          findByIdAndUpdate, writeCount, hdb, hwf]
    | some r => cases hwf : ea.writeFault <;>
        simp [processFinancialAudio, hpair, persistOutcome,
          findByIdAndUpdate, writeCount, hdb, hwf]
  · intro hdb
    cases hwf : e.writeFault <;>
      simp [processFinancialDocument, hs1, hs2, persistOutcome,
        findByIdAndUpdate, writeCount, hdb, hwf]
  · intro hdb
    cases hwf : ea.writeFault <;>
      simp [processFinancialAudio, hpair, persistOutcome,
        findByIdAndUpdate, writeCount, hdb, hwf]
  · intro r hdb
    refine ⟨?_, ?_, ?_⟩
    · cases hwf : e.writeFault <;>
        simp [processFinancialDocument, hs1, hs2, persistOutcome,
          findByIdAndUpdate, writeCount, hdb, hwf]
    · intro hwf
      simp [processFinancialDocument, hs1, hs2, persistOutcome,
        findByIdAndUpdate, writeCount, hdb, hwf, applyUpdate, docSuccessUpdate]
    · intro m hwf
      simp [processFinancialDocument, hs1, hs2, persistOutcome,
        findByIdAndUpdate, writeCount, hdb, hwf, applyUpdate, failUpdate]
  · intro r hdb
    refine ⟨?_, ?_, ?_⟩
    · cases hwf : ea.writeFault <;>
        simp [processFinancialAudio, hpair, persistOutcome,
          findByIdAndUpdate, writeCount, hdb, hwf]
    · intro hwf
      simp [processFinancialAudio, hpair, persistOutcome,
        findByIdAndUpdate, writeCount, hdb, hwf, applyUpdate, audioSuccessUpdate]
    · intro m hwf
      simp [processFinancialAudio, hpair, persistOutcome,
        findByIdAndUpdate, writeCount, hdb, hwf, applyUpdate, failUpdate]

/-- Claim C2 counterexample: a document-job execution whose extraction
fails performs zero record mutations — neither the success nor the failure
write — contradicting "exactly one record mutation per job execution,
never neither". -/
theorem claim_C2_counterexample :
    processFinancialDocument c2Env =
      ⟨some procRec,
        Except.error
          "AI Extraction Failed: Failed to extract financial data from document: model down",
        true, 0⟩ ∧
    procRec.processedAt = none :=
  ⟨rfl, rfl⟩

/-- Claim C2 witness. -/
theorem claim_C2_witness :
    (processFinancialDocument c2EnvW).writes = 1 ∧
    (processFinancialAudio c2AEnvW).writes = 1 := by
  have h := claim_C2_amended c2EnvW c2AEnvW (Json.obj []) ⟨none, none, none, none⟩
    rfl rfl
  exact ⟨(h.2.2.2.1 procRec rfl).1, (h.2.2.2.2 procRec rfl).1⟩

/-- Claim C3 (amended): on a missing source file the document job
re-raises a wrapped error whose message contains the not-found indication
and the missing path, and the extraction capability is never invoked; but
no `FAILED` write occurs — the record is left exactly as it was. -/
theorem claim_C3_amended (e : DocJobEnv) (hmiss : e.fileExists = false) :
    (processFinancialDocument e).outcome =
      Except.error ("Failed to read uploaded file: " ++
        ("File not found at path: " ++ e.filePath)) ∧
    (processFinancialDocument e).extractCalled = false ∧
    (processFinancialDocument e).db = e.db ∧
    (processFinancialDocument e).writes = 0 := by
  have hs1 : docStep1 e = Except.error ("Failed to read uploaded file: " ++
      ("File not found at path: " ++ e.filePath)) := by
    simp [docStep1, hmiss]
  simp [processFinancialDocument, hs1]

/-- Claim C3 counterexample: missing file, record present and
`PROCESSING` — the job ends with the record still `PROCESSING`, not
`FAILED`, and no `processingError` is persisted (the not-found text
travels only in the re-raised error). -/
theorem claim_C3_counterexample :
    processFinancialDocument c3Env =
      ⟨some procRec,
        Except.error "Failed to read uploaded file: File not found at path: /tmp/r.png",
        false, 0⟩ ∧
    procRec.status ≠ Status.failed :=
  ⟨rfl, by decide⟩

/-- Claim C3 witness. -/
theorem claim_C3_witness :
    (processFinancialDocument c3Env).extractCalled = false ∧
    (processFinancialDocument c3Env).writes = 0 := by
  have h := claim_C3_amended c3Env rfl
  exact ⟨h.2.1, h.2.2.2⟩

/-- Claim C4 (amended): when the extraction capability raises, the job
terminates by re-raising an error whose message contains the extraction
error's message verbatim (as a suffix), but nothing is persisted: the
record keeps its prior state, with no `FAILED` status and no
`processingError`. -/
theorem claim_C4_amended (e : DocJobEnv) (c m : String)
    (h1 : docStep1 e = Except.ok c)
    (h2 : extractFinancialData e.apiKey e.modelResult = Except.error m) :
    (processFinancialDocument e).outcome =
      Except.error ("AI Extraction Failed: " ++ m) ∧
    m.data <:+ ("AI Extraction Failed: " ++ m).data ∧
    (processFinancialDocument e).db = e.db ∧
    (processFinancialDocument e).writes = 0 := by
  have hs2 : docStep2 e = Except.error ("AI Extraction Failed: " ++ m) := by
    simp [docStep2, h2]
  refine ⟨?_, ?_, ?_, ?_⟩
  · simp [processFinancialDocument, h1, hs2]
  · rw [String.data_append]
    exact List.suffix_append _ _
  · simp [processFinancialDocument, h1, hs2]
  · simp [processFinancialDocument, h1, hs2]

/-- Claim C4 counterexample: the extraction call raises, the record stays
`PROCESSING` with `processingError = none`; the original message appears
only in the re-raised error, not in any persisted field. -/
theorem claim_C4_counterexample :
    processFinancialDocument c4Env =
      ⟨some procRec,
        Except.error
          "AI Extraction Failed: Failed to extract financial data from document: quota exceeded",
        true, 0⟩ ∧
    procRec.status ≠ Status.failed ∧ procRec.processingError = none :=
  ⟨rfl, by decide, rfl⟩

/-- Claim C4 witness. -/
theorem claim_C4_witness :
    (processFinancialDocument c4Env).outcome =
      Except.error
        "AI Extraction Failed: Failed to extract financial data from document: quota exceeded" ∧
    (processFinancialDocument c4Env).writes = 0 := by
  have h := claim_C4_amended c4Env "content"
    "Failed to extract financial data from document: quota exceeded" rfl rfl
  exact ⟨h.1, h.2.2.2⟩

/-- Claim C5: when steps 1–2 succeed but no record with the event's
`documentId` exists at the success write, both jobs raise the not-found
error naming the document and re-raise it out of the job execution (the
outcome is that error, a hard failure, not a swallowed one). -/
theorem claim_C5 (e : DocJobEnv) (ea : AudioJobEnv) (v : Json) (a : AudioResult)
    (h : docStep12 e = Except.ok v) (hdb : e.db = none) (hwf : e.writeFault = none)
    (ha : (audioStep1 ea).1 = Except.ok a) (hadb : ea.db = none)
    (hawf : ea.writeFault = none) :
    (processFinancialDocument e).outcome =
      Except.error ("Document with ID " ++ e.documentId ++ " not found") ∧
    (processFinancialDocument e).db = none ∧
    (processFinancialAudio ea).outcome =
      Except.error ("Document with ID " ++ ea.documentId ++ " not found") ∧
    (processFinancialAudio ea).db = none := by
  obtain ⟨c, hs1, hs2⟩ := docStep12_ok e v h
  obtain ⟨mu, hpair⟩ := audioStep1_pair ea a ha
  refine ⟨?_, ?_, ?_, ?_⟩ <;>
    simp [processFinancialDocument, processFinancialAudio, hs1, hs2, hpair,
      persistOutcome, findByIdAndUpdate, writeCount, hdb, hwf, hadb, hawf]

/-- Claim C5 witness. -/
theorem claim_C5_witness :
    (processFinancialDocument c5Env).outcome =
      Except.error "Document with ID d5 not found" ∧
    (processFinancialAudio c5AEnv).outcome =
      Except.error "Document with ID d6 not found" := by
  have h := claim_C5 c5Env c5AEnv (Json.obj []) ⟨none, none, none, none⟩
    rfl rfl rfl rfl rfl rfl
  exact ⟨h.1, h.2.2.1⟩

/-- Claim C7: `extractFinancialData` returns exactly the value produced by
`JSON.parse` of the fence-stripped response text, with no validation
against the declared schema; in particular a parsed object lacking a
`currency` field is returned still lacking it — the schema's `USD` default
is never applied. -/
theorem claim_C7 (key : String) (r : String) (v : Json)
    (h : parseJson (stripFences r) = some v) :
    extractFinancialData (some key) (Except.ok r) = Except.ok v ∧
    (jsonLookup v "currency" = none →
      ∃ w, extractFinancialData (some key) (Except.ok r) = Except.ok w ∧
        jsonLookup w "currency" = none) := by
  have h1 : extractFinancialData (some key) (Except.ok r) = Except.ok v := by
    simp [extractFinancialData, h]
  exact ⟨h1, fun hc => ⟨v, h1, hc⟩⟩

/-- Claim C7 witness: a concrete response without a `currency` field. -/
theorem claim_C7_witness :
    parseJson (stripFences c7Resp) = some c7Val ∧
    extractFinancialData (some "key") (Except.ok c7Resp) = Except.ok c7Val ∧
    jsonLookup c7Val "currency" = none := by
  have hp : parseJson (stripFences c7Resp) = some c7Val := rfl
  exact ⟨hp, (claim_C7 "key" c7Resp c7Val hp).1, rfl⟩

/-- Claim C8: with the credential absent from the environment, both
extraction-client operations fail with the missing-credential message, and
the result does not depend on the file read or the model call — neither is
consulted (the error is raised before them). -/
theorem claim_C8 (ft : String) (readResult modelResult : Except String String) :
    extractFinancialData none modelResult =
      Except.error
        "Failed to extract financial data from document: GEMINI_API_KEY is missing" ∧
    analyzeAudio ft none readResult modelResult =
      Except.error
        "Failed to analyze audio with Gemini: GEMINI_API_KEY is missing" :=
  ⟨rfl, rfl⟩

/-- Claim C9 (amended): in the audio job's success write, the persisted
transcript equals the returned transcript exactly when that value is
present and JS-truthy; when it is absent or falsy (the empty string, but
also `null`, `false` or a zero number), the literal
`"Transcript not available"` is persisted instead. -/
theorem claim_C9_amended (ea : AudioJobEnv) (a : AudioResult) (r : DocRecord)
    (ha : (audioStep1 ea).1 = Except.ok a) (hdb : ea.db = some r)
    (hwf : ea.writeFault = none) :
    (processFinancialAudio ea).db =
      some (applyUpdate r (audioSuccessUpdate a ea.now)) ∧
    (∀ t, a.transcript = some t → jsTruthy t = true →
      getF (applyUpdate r (audioSuccessUpdate a ea.now)).payload "transcript" =
        some (PVal.json t)) ∧
    ((a.transcript = none ∨ ∃ t, a.transcript = some t ∧ jsTruthy t = false) →
      getF (applyUpdate r (audioSuccessUpdate a ea.now)).payload "transcript" =
        some (PVal.json (Json.str "Transcript not available"))) := by
  obtain ⟨mu, hpair⟩ := audioStep1_pair ea a ha
  have hG : getF (applyUpdate r (audioSuccessUpdate a ea.now)).payload "transcript" =
      some (PVal.json (transcriptVal a.transcript)) := by
    simp [applyUpdate, audioSuccessUpdate, mergePayload, getF, List.find?]
  refine ⟨?_, ?_, ?_⟩
  · simp [processFinancialAudio, hpair, persistOutcome, findByIdAndUpdate, hdb, hwf]
  · intro t ht htr
    rw [hG, ht]
    simp [transcriptVal, htr]
  · intro hcase
    rw [hG]
    rcases hcase with hnone | ⟨t, ht, htf⟩
    · rw [hnone]
      rfl
    · rw [ht]
      simp [transcriptVal, htf]

/-- Claim C9 counterexample: the analysis result's transcript is present
but `null` — neither absent nor an empty string, so the claim requires the
persisted transcript to equal it; the code persists the default string
instead (`null` is JS-falsy). -/
theorem claim_C9_counterexample :
    analyzeAudio (audioMime c9AEnv.filePath) c9AEnv.apiKey c9AEnv.readResult
        c9AEnv.modelResult =
      Except.ok ⟨some (Json.str "Positive"), none, none, some Json.null⟩ ∧
    (processFinancialAudio c9AEnv).db =
      some ⟨Status.completed, none, some 11,
        [("transcript", PVal.json (Json.str "Transcript not available")),
         ("sentiment", PVal.json (Json.str "Positive"))]⟩ ∧
    Json.null ≠ Json.str "Transcript not available" := by
  refine ⟨rfl, rfl, ?_⟩
  intro hx
  exact Json.noConfusion hx

/-- Claim C9 witness: a present, truthy transcript is persisted verbatim. -/
theorem claim_C9_witness :
    (processFinancialAudio c9WEnv).db = some c9WRec ∧
    getF c9WRec.payload "transcript" = some (PVal.json (Json.str "hello")) := by
  have h := claim_C9_amended c9WEnv ⟨none, none, none, some (Json.str "hello")⟩
    procRec rfl rfl rfl
  exact ⟨rfl, h.2.1 (Json.str "hello") rfl rfl⟩

/-- The audio job records the mime type chosen from the path whenever the
file exists, whatever the analysis outcome. -/
theorem audio_mimeUsed (e : AudioJobEnv) (hx : e.fileExists = true) :
    (processFinancialAudio e).mimeUsed = some (audioMime e.filePath) := by
  cases hr : analyzeAudio (audioMime e.filePath) e.apiKey e.readResult e.modelResult with
  | error m => simp [processFinancialAudio, audioStep1, hx, hr]
  | ok a =>
    rcases hp : persistOutcome e.db e.writeFault e.documentId e.now
        (audioSuccessUpdate a e.now) with ⟨db₂, n, res⟩
    cases res <;> simp [processFinancialAudio, audioStep1, hx, hr, hp]

/-- Claim C10: the mime type the audio job passes to `analyzeAudio` is a
function of the event's file path suffix alone — `audio/wav` exactly when
the path ends in `.wav`, `audio/mp3` otherwise — and two executions on the
same path use the same mime type regardless of file content or model
behaviour. -/
theorem claim_C10 (e₁ e₂ : AudioJobEnv) (hp : e₁.filePath = e₂.filePath)
    (h₁ : e₁.fileExists = true) (h₂ : e₂.fileExists = true) :
    (processFinancialAudio e₁).mimeUsed = some (audioMime e₁.filePath) ∧
    (processFinancialAudio e₂).mimeUsed = (processFinancialAudio e₁).mimeUsed ∧
    (strEndsWith e₁.filePath ".wav" = true →
      (processFinancialAudio e₁).mimeUsed = some "audio/wav") ∧
    (strEndsWith e₁.filePath ".wav" = false →
      (processFinancialAudio e₁).mimeUsed = some "audio/mp3") := by
  have m₁ := audio_mimeUsed e₁ h₁
  have m₂ := audio_mimeUsed e₂ h₂
  refine ⟨m₁, ?_, ?_, ?_⟩
  · rw [m₁, m₂, hp]
  · intro hw
    rw [m₁]
    simp [audioMime, hw]
  · intro hw
    rw [m₁]
    simp [audioMime, hw]

/-- Claim C10 witness: same `.wav` path, different content and model
behaviour, same mime type. -/
theorem claim_C10_witness :
    (processFinancialAudio c10aEnv).mimeUsed = some "audio/wav" ∧
    (processFinancialAudio c10bEnv).mimeUsed = some "audio/wav" := by
  have h := claim_C10 c10aEnv c10bEnv rfl rfl rfl
  have hw := h.2.2.1 (by decide)
  exact ⟨hw, by rw [h.2.1, hw]⟩
